import Mathlib

/-!
# Verification of the Chromium accessibility-tree core (`crAccessibility.ts`)

A shallow embedding of the accessibility node model, tree builder,
classification engine, serializer and tree search of
`src/chromium/crAccessibility.ts`, together with proofs checking the
natural-language specification against it.

Conventions of the embedding:
* Protocol payload fields that may be absent (`role?`, `name?`, `properties?`,
  `childIds?`, ...) are `Option`s.
* A scalar protocol value (`property.value.value` etc.) is an `AXValue`:
  a string, a boolean, or a number.  JavaScript truthiness of such a value is
  the function `truthy`.
* A JavaScript runtime exception (a `TypeError` from dereferencing
  `undefined`) is modelled as `Option.none` in the result of the function
  that would throw.
* The insertion-ordered JavaScript `Map` is modelled as an association list
  with in-place overwrite (`mapSet` / `mapLookup`).
-/

/-- A scalar protocol value: the `value` field of an `AXValue` in the
Chrome DevTools protocol payload (string, boolean, or number). -/
inductive AXValue where
  | str (s : String)
  | bool (b : Bool)
  | num (n : Int)
deriving DecidableEq, Repr

/-- JavaScript truthiness of a scalar value: `''`, `false` and `0` are falsy,
everything else is truthy. -/
def truthy : AXValue → Bool
  | .str s => s ≠ ""
  | .bool b => b
  | .num n => n ≠ 0

/-- One entry of `payload.properties`: `{ name: string, value: { value } }`. -/
structure AXProperty where
  name : String
  value : AXValue
deriving DecidableEq, Repr

/-- A raw accessibility node record
(`Protocol.Accessibility.AXNode`): the input of the tree builder. -/
structure AXPayload where
  nodeId : String
  role : Option String := none
  name : Option String := none
  value : Option AXValue := none
  description : Option AXValue := none
  properties : Option (List AXProperty) := none
  childIds : Option (List String) := none
  backendDOMNodeId : Option Int := none
deriving DecidableEq, Repr

/-- The five boolean flags parsed once at node construction
(`CRAXNode` fields `_richlyEditable` .. `_hidden`, lines 31-35). -/
structure AXFlags where
  richlyEditable : Bool := false
  editable : Bool := false
  focusable : Bool := false
  expanded : Bool := false
  hidden : Bool := false
deriving DecidableEq, Repr

/-- One step of the constructor's property loop (lines 48-59): a property
named `editable` sets `_editable` and decides `_richlyEditable` by comparison
of its value with the string `'richtext'`; `focusable`, `expanded` and
`hidden` take the property value directly (used only in boolean positions,
hence embedded as its truthiness). -/
def flagStep (f : AXFlags) (pr : AXProperty) : AXFlags :=
  let f := if pr.name = "editable" then
    { f with richlyEditable := pr.value = AXValue.str "richtext", editable := true } else f
  let f := if pr.name = "focusable" then { f with focusable := truthy pr.value } else f
  let f := if pr.name = "expanded" then { f with expanded := truthy pr.value } else f
  if pr.name = "hidden" then { f with hidden := truthy pr.value } else f

/-- The constructor's flag parse over `payload.properties || []`. -/
def parseFlags (props : List AXProperty) : AXFlags :=
  props.foldl flagStep {}

/-- A constructed accessibility node: its payload and its (already built)
ordered children.  This is the tree on which the classification engine and
the search operate. -/
inductive CRAXNode where
  | mk (payload : AXPayload) (children : List CRAXNode)

namespace CRAXNode

def payload : CRAXNode → AXPayload
  | .mk p _ => p

def children : CRAXNode → List CRAXNode
  | .mk _ cs => cs

/-- `this._name = this._payload.name ? this._payload.name.value : ''` (line 45). -/
def name (n : CRAXNode) : String := n.payload.name.getD ""

/-- `this._role = this._payload.role ? this._payload.role.value : 'Unknown'` (line 46). -/
def role (n : CRAXNode) : String := n.payload.role.getD "Unknown"

def flags (n : CRAXNode) : AXFlags := parseFlags (n.payload.properties.getD [])

def richlyEditable (n : CRAXNode) : Bool := n.flags.richlyEditable

def editable (n : CRAXNode) : Bool := n.flags.editable

def focusable (n : CRAXNode) : Bool := n.flags.focusable

def hidden (n : CRAXNode) : Bool := n.flags.hidden

/-- `_isPlainTextField` (lines 62-68).  Note the source compares the role
with `'ComboBox'` (capitalised), unlike the lowercase `'textbox'` and
`'searchbox'`. -/
def isPlainTextField (n : CRAXNode) : Bool :=
  if n.richlyEditable then false
  else if n.editable then true
  else n.role = "textbox" || n.role = "ComboBox" || n.role = "searchbox"

/-- `_isTextOnlyObject` (lines 70-74). -/
def isTextOnlyObject (n : CRAXNode) : Bool :=
  n.role = "LineBreak" || n.role = "text" || n.role = "InlineTextBox"

end CRAXNode

mutual

/-- The pure value computed by `_hasFocusableChild` (lines 76-87): the
recursive OR, over the children, of "child is focusable or child itself has a
focusable child".  (The `_cachedHasFocusableChild` memo cell is modelled
separately by `hasFocusableChildMemo`.) -/
def CRAXNode.hasFocusableChild : CRAXNode → Bool
  | .mk _ cs => hasFocusableChildAux cs

/-- The `for (const child of this._children)` loop of `_hasFocusableChild`,
short-circuiting on the first `true`. -/
def hasFocusableChildAux : List CRAXNode → Bool
  | [] => false
  | c :: rest => (c.focusable || c.hasFocusableChild) || hasFocusableChildAux rest

end

/-- The `_cachedHasFocusableChild : boolean | undefined` memo cell
(lines 38, 76-87): a call reads the cache if set, otherwise performs the pure
recomputation and stores the result.  Returns the value together with the
updated cache state. -/
def hasFocusableChildMemo (cache : Option Bool) (n : CRAXNode) : Bool × Option Bool :=
  match cache with
  | some b => (b, some b)
  | none => (n.hasFocusableChild, some n.hasFocusableChild)

namespace CRAXNode

/-- `isLeafNode` (lines 111-148). Note the capitalised `'Meter'` in the
presentational-role switch. -/
def isLeafNode (n : CRAXNode) : Bool :=
  if n.children.isEmpty then true
  else if n.isPlainTextField || n.isTextOnlyObject then true
  else if n.role = "doc-cover" || n.role = "graphics-symbol" || n.role = "img" ||
          n.role = "Meter" || n.role = "scrollbar" || n.role = "slider" ||
          n.role = "separator" || n.role = "progressbar" then true
  else if n.hasFocusableChild then false
  else if n.focusable && n.name ≠ "" then true
  else if n.role = "heading" && n.name ≠ "" then true
  else false

/-- `isControl` (lines 150-176). -/
def isControl (n : CRAXNode) : Bool :=
  ["button", "checkbox", "ColorWell", "combobox", "DisclosureTriangle", "listbox",
   "menu", "menubar", "menuitem", "menuitemcheckbox", "menuitemradio", "radio",
   "scrollbar", "searchbox", "slider", "spinbutton", "switch", "tab", "textbox",
   "tree"].contains n.role

/-- `isInteresting(insideControl)` (lines 178-195). Note the capitalised
`'Ignored'` role. -/
def isInteresting (n : CRAXNode) (insideControl : Bool) : Bool :=
  if n.role = "Ignored" || n.hidden then false
  else if n.focusable || n.richlyEditable then true
  else if n.isControl then true
  else if insideControl then false
  else n.isLeafNode && n.name ≠ ""

end CRAXNode

mutual

/-- `find(predicate)` (lines 100-109): test the node itself, then recurse into
the children left to right, returning the first hit, else `none`. -/
def CRAXNode.find (p : CRAXNode → Bool) : CRAXNode → Option CRAXNode
  | .mk pl cs =>
    if p (.mk pl cs) then some (.mk pl cs) else findAux p cs

/-- The `for (const child of this._children)` loop of `find`: first non-null
child result. -/
def findAux (p : CRAXNode → Bool) : List CRAXNode → Option CRAXNode
  | [] => none
  | c :: rest =>
    match CRAXNode.find p c with
    | some r => some r
    | none => findAux p rest

end

mutual

/-- The depth-first, node-before-children, children-left-to-right visit
order: the order in which `find` tests nodes. -/
def CRAXNode.preorder : CRAXNode → List CRAXNode
  | .mk pl cs => .mk pl cs :: preorderAux cs

/-- Preorder of a forest: the concatenated preorders of the trees. -/
def preorderAux : List CRAXNode → List CRAXNode
  | [] => []
  | c :: rest => c.preorder ++ preorderAux rest

end

/-- The transitive descendants of a node (the node itself excluded): every
node of every child's subtree, in visit order. -/
def CRAXNode.descendants (n : CRAXNode) : List CRAXNode := preorderAux n.children

/-! ## The insertion-ordered map

A JavaScript `Map`: `set` overwrites an existing key in place and appends a
new key at the end; iteration (`values()`) follows insertion order. -/

/-- `Map.set`: overwrite in place when the key is present, append otherwise. -/
def mapSet {α : Type} (m : List (String × α)) (k : String) (v : α) : List (String × α) :=
  if m.any (fun e => e.1 = k) then
    m.map (fun e => if e.1 = k then (k, v) else e)
  else m ++ [(k, v)]

/-- `Map.get`: the value at a key, `none` (JavaScript `undefined`) when
absent. -/
def mapLookup {α : Type} (m : List (String × α)) (k : String) : Option α :=
  (m.find? (fun e => e.1 = k)).map (fun e => e.2)

/-! ## The serializer (lines 197-281) -/

/-- The canonical output record (`accessibility.SerializedAXNode`): `role` and
`name` are always present; every other field is optional and carries the raw
scalar written by `serialize`. -/
structure SerializedAXNode where
  role : String
  name : String
  value : Option AXValue := none
  description : Option AXValue := none
  keyshortcuts : Option AXValue := none
  roledescription : Option AXValue := none
  valuetext : Option AXValue := none
  disabled : Option AXValue := none
  expanded : Option AXValue := none
  focused : Option AXValue := none
  modal : Option AXValue := none
  multiline : Option AXValue := none
  multiselectable : Option AXValue := none
  readonly : Option AXValue := none
  required : Option AXValue := none
  selected : Option AXValue := none
  checked : Option AXValue := none
  pressed : Option AXValue := none
  level : Option AXValue := none
  valuemax : Option AXValue := none
  valuemin : Option AXValue := none
  autocomplete : Option AXValue := none
  haspopup : Option AXValue := none
  invalid : Option AXValue := none
  orientation : Option AXValue := none
deriving DecidableEq, Repr

/-- `toLowerCase()` on a property name.  (Character-wise ASCII lowering of
the string; protocol property names are ASCII identifiers.) -/
def lowerAscii (s : String) : String := ⟨s.data.map Char.toLower⟩

/-- The generic property bag (lines 199-200): every payload property under
its lower-cased name, later writes overwriting earlier ones. -/
def propBag (props : List AXProperty) : List (String × AXValue) :=
  props.foldl (fun m pr => mapSet m (lowerAscii pr.name) pr.value) []

/-- The `properties` map built at the top of `serialize` (lines 198-206):
the generic property bag, then the dedicated `name`, `value` and
`description` payload fields on top. -/
def serializeProps (p : AXPayload) : List (String × AXValue) :=
  let m := propBag (p.properties.getD [])
  let m := match p.name with | some s => mapSet m "name" (.str s) | none => m
  let m := match p.value with | some v => mapSet m "value" v | none => m
  match p.description with | some v => mapSet m "description" v | none => m

/-- A user-string field (lines 213-224): copied verbatim when the key is in
the map. -/
def userStringField (props : List (String × AXValue)) (k : String) : Option AXValue :=
  mapLookup props k

/-- A boolean field (lines 226-246, the per-key body): skipped when absent or
falsy, copied verbatim otherwise.  (The `WebArea`/`focused` exception is in
`serialize` itself.) -/
def booleanField (props : List (String × AXValue)) (k : String) : Option AXValue :=
  match mapLookup props k with
  | some v => if truthy v then some v else none
  | none => none

/-- The tristate mapping (line 256):
`value === 'mixed' ? 'mixed' : value === 'true' ? true : false`. -/
def tristateOf (v : AXValue) : AXValue :=
  if v = .str "mixed" then .str "mixed" else if v = .str "true" then .bool true else .bool false

/-- A tristate field (lines 248-257): mapped through `tristateOf` when the
key is in the map. -/
def tristateField (props : List (String × AXValue)) (k : String) : Option AXValue :=
  (mapLookup props k).map tristateOf

/-- A numerical field (lines 258-267): passed through unchanged when the key
is in the map. -/
def numericalField (props : List (String × AXValue)) (k : String) : Option AXValue :=
  mapLookup props k

/-- A token field (lines 268-279): skipped when absent, falsy, or equal to
the string `'false'`; copied verbatim otherwise. -/
def tokenField (props : List (String × AXValue)) (k : String) : Option AXValue :=
  match mapLookup props k with
  | some v => if truthy v && v ≠ .str "false" then some v else none
  | none => none

/-- `serialize` (lines 197-281).  Line 210 reads
`this._payload.name.value` with no guard: on a payload with no `name` field
this dereferences `undefined` and throws a `TypeError`, modelled as `none`.
(`x || ''` on a string `x` is `x` itself, since `''` is the only falsy
string.)  The `role` field and the `WebArea` comparison use `this._role`,
i.e. `payload.role.value` defaulted to `'Unknown'`. -/
def serializePayload (p : AXPayload) : Option SerializedAXNode :=
  match p.name with
  | none => none
  | some nameVal =>
    let props := serializeProps p
    let role := p.role.getD "Unknown"
    some {
      role := role
      name := nameVal
      value := userStringField props "value"
      description := userStringField props "description"
      keyshortcuts := userStringField props "keyshortcuts"
      roledescription := userStringField props "roledescription"
      valuetext := userStringField props "valuetext"
      disabled := booleanField props "disabled"
      expanded := booleanField props "expanded"
      focused := if role = "WebArea" then none else booleanField props "focused"
      modal := booleanField props "modal"
      multiline := booleanField props "multiline"
      multiselectable := booleanField props "multiselectable"
      readonly := booleanField props "readonly"
      required := booleanField props "required"
      selected := booleanField props "selected"
      checked := tristateField props "checked"
      pressed := tristateField props "pressed"
      level := numericalField props "level"
      valuemax := numericalField props "valuemax"
      valuemin := numericalField props "valuemin"
      autocomplete := tokenField props "autocomplete"
      haspopup := tokenField props "haspopup"
      invalid := tokenField props "invalid"
      orientation := tokenField props "orientation" }

/-- Serialization of a constructed node: only its payload matters. -/
def CRAXNode.serialize (n : CRAXNode) : Option SerializedAXNode := serializePayload n.payload

/-! ## The tree builder (`createTree`, lines 283-292)

`createTree` makes two passes: pass one wraps every payload into a node and
stores it in an insertion-ordered map keyed by `nodeId`; pass two, for every
node in the map and every id of `payload.childIds || []`, pushes
`nodeById.get(childId)` onto the node's children — with **no** check that the
lookup succeeded, so a dangling child id pushes `undefined`.  It then returns
the first value of the map (`nodeById.values().next().value`), which is
`undefined` when the input is empty.  Nothing ever throws.

A node's children after pass two are represented by the list of looked-up
payloads, `none` standing for a pushed `undefined`. -/

/-- A node as left by `createTree`: its payload, and one entry per id of its
`childIds` list — the payload of the resolved child, or `none` where the
lookup returned `undefined`. -/
structure BuiltNode where
  payload : AXPayload
  childNodes : List (Option AXPayload)
deriving DecidableEq, Repr

/-- Pass one of `createTree` (lines 284-286): the `nodeById` map in insertion
order. -/
def buildMap (payloads : List AXPayload) : List (String × AXPayload) :=
  payloads.foldl (fun m p => mapSet m p.nodeId p) []

/-- Pass two of `createTree` (lines 287-290): every map value with its
resolved children. -/
def buildNodes (payloads : List AXPayload) : List BuiltNode :=
  let m := buildMap payloads
  m.map (fun e => ⟨e.2, (e.2.childIds.getD []).map (fun cid => mapLookup m cid)⟩)

/-- `createTree` (lines 283-292): the first value of the map
(`nodeById.values().next().value`), `none` (JavaScript `undefined`) when the
input is empty.  The function is total: it never signals an error. -/
def createTree (payloads : List AXPayload) : Option BuiltNode :=
  (buildNodes payloads).head?

/-! ## Concrete instances used to settle the claims -/

/-- A payload with no `name` field: `serialize` dereferences
`this._payload.name.value` on it. -/
def noNamePayload : AXPayload := { nodeId := "cex1" }

/-- A payload with a `name` but no `role` field: the role default case. -/
def noRolePayload : AXPayload := { nodeId := "cex2", name := some "nm" }

/-- A record whose only child id, `"x9"`, matches no record. -/
def danglingPayload : AXPayload := { nodeId := "n1", childIds := some ["x9"] }

/-- A record that lists itself as its only child: every reference resolves. -/
def selfChildPayload : AXPayload := { nodeId := "n1", childIds := some ["n1"] }

/-- A childless node with role `combobox` (lowercase, as the specification
writes it) and no properties. -/
def comboboxNode : CRAXNode := .mk { nodeId := "c3", role := some "combobox" } []

/-- A node with role `meter` (lowercase, as the specification writes it) and
one inert child. -/
def meterNode : CRAXNode :=
  .mk { nodeId := "c4", role := some "meter" } [.mk { nodeId := "c4c" } []]

/-- A childless named node with role `ignored` (lowercase, as the
specification writes it). -/
def ignoredNode : CRAXNode :=
  .mk { nodeId := "c6", role := some "ignored", name := some "x" } []

/-- A `WebArea` node carrying a truthy `focused` property. -/
def webAreaNode : CRAXNode :=
  .mk { nodeId := "w7", role := some "WebArea", name := some "",
        properties := some [⟨"focused", .bool true⟩] } []

/-- A payload carrying a `checked` property valued `"mixed"` (and no
`pressed` property). -/
def mixedCheckedPayload : AXPayload :=
  { nodeId := "w8", name := some "", properties := some [⟨"checked", .str "mixed"⟩] }

/-- The record `serialize` produces for `mixedCheckedPayload`. -/
def mixedCheckedOutput : SerializedAXNode :=
  { role := "Unknown", name := "", checked := some (.str "mixed") }

/-- A payload whose `checked` and `pressed` properties are the boolean
`true` (not the string `"true"`). -/
def boolTruePayload : AXPayload :=
  { nodeId := "wa", name := some "",
    properties := some [⟨"checked", .bool true⟩, ⟨"pressed", .bool true⟩] }

/-- A focusable node used to exercise `hasFocusableChild` and the memo. -/
def focusableLeaf : CRAXNode :=
  .mk { nodeId := "f1", properties := some [⟨"focusable", .bool true⟩] } []

/-- A parent whose only focusable node is a grandchild. -/
def grandparentNode : CRAXNode :=
  .mk { nodeId := "g1" } [.mk { nodeId := "g2" } [focusableLeaf]]

/-- The record `serialize` produces for `boolTruePayload`. -/
def boolTrueOutput : SerializedAXNode :=
  { role := "Unknown", name := "",
    checked := some (.bool false), pressed := some (.bool false) }

/-! ## Helper lemmas about the map model -/

theorem overwrite_preserves_key {α : Type} (k : String) (v : α) (k' : String) :
    ((fun e : String × α => decide (e.1 = k')) ∘ fun e => if e.1 = k then (k, v) else e) =
      fun e : String × α => decide (e.1 = k') := by
  funext e
  by_cases h : e.1 = k <;> simp [h]

/-- `Map.set` then `Map.get`: the fresh value at the written key, the old map
elsewhere. -/
theorem mapLookup_mapSet {α : Type} (m : List (String × α)) (k k' : String) (v : α) :
    mapLookup (mapSet m k v) k' = if k' = k then some v else mapLookup m k' := by
  unfold mapSet mapLookup
  by_cases hany : m.any (fun e => e.1 = k)
  · rw [if_pos hany, List.find?_map, overwrite_preserves_key]
    by_cases hk : k' = k
    · subst hk
      simp only [List.any_eq_true] at hany
      obtain ⟨e0, he0, hk0⟩ := hany
      simp only [decide_eq_true_eq] at hk0
      cases hf : m.find? (fun e => decide (e.1 = k')) with
      | none =>
        rw [List.find?_eq_none] at hf
        exact absurd (by simp [hk0]) (hf e0 he0)
      | some e1 =>
        have h1 : e1.1 = k' := by simpa using List.find?_some hf
        simp [hf, h1]
    · cases hf : m.find? (fun e => decide (e.1 = k')) with
      | none => simp [hf, hk]
      | some e1 =>
        have h1 : e1.1 = k' := by simpa using List.find?_some hf
        have h2 : ¬ e1.1 = k := by rw [h1]; exact hk
        simp [hf, hk, h2]
  · rw [if_neg hany, List.find?_append, List.find?_singleton]
    by_cases hk : k' = k
    · subst hk
      have hnone : m.find? (fun e => decide (e.1 = k')) = none := by
        rw [List.find?_eq_none]
        simp only [List.any_eq_true, decide_eq_true_eq, not_exists, not_and] at hany
        intro e he hc
        simp only [decide_eq_true_eq] at hc
        exact hany e he hc
      simp [hnone]
    · have hne : ¬ ((k, v).1 = k') := fun h => hk h.symm
      simp only [hne, decide_eq_true_eq, if_neg, decide_eq_false_iff_not, not_false_eq_true]
      cases m.find? (fun e => decide (e.1 = k')) <;> simp [hk, hne]

theorem mapLookup_mapSet_isSome {α : Type} (m : List (String × α)) (k k' : String) (v : α) :
    (mapLookup (mapSet m k v) k').isSome ↔ k' = k ∨ (mapLookup m k').isSome := by
  rw [mapLookup_mapSet]
  by_cases hk : k' = k <;> simp [hk]

/-- `Map.set` never empties a map. -/
theorem mapSet_ne_nil {α : Type} (m : List (String × α)) (k : String) (v : α) :
    mapSet m k v ≠ [] := by
  unfold mapSet
  by_cases hany : m.any (fun e => e.1 = k)
  · cases m with
    | nil => simp at hany
    | cons a m => simp [hany]
  · simp [hany]

/-- A key is in the generic property bag exactly when some payload property
has that lower-cased name. -/
theorem propBag_lookup_isSome (props : List AXProperty) (k : String) :
    (mapLookup (propBag props) k).isSome ↔ ∃ pr ∈ props, lowerAscii pr.name = k := by
  have general : ∀ (ps : List AXProperty) (m : List (String × AXValue)),
      (mapLookup (ps.foldl (fun m pr => mapSet m (lowerAscii pr.name) pr.value) m) k).isSome ↔
        (mapLookup m k).isSome ∨ ∃ pr ∈ ps, lowerAscii pr.name = k := by
    intro ps
    induction ps with
    | nil => intro m; simp
    | cons pr rest ih =>
      intro m
      simp only [List.foldl_cons]
      rw [ih, mapLookup_mapSet_isSome]
      simp only [List.mem_cons]
      constructor
      · rintro ((h | h) | ⟨q, hq, hk⟩)
        · exact Or.inr ⟨pr, Or.inl rfl, h.symm⟩
        · exact Or.inl h
        · exact Or.inr ⟨q, Or.inr hq, hk⟩
      · rintro (h | ⟨q, (rfl | hq), hk⟩)
        · exact Or.inl (Or.inr h)
        · exact Or.inl (Or.inl hk.symm)
        · exact Or.inr ⟨q, hq, hk⟩
  have h := general props []
  simpa [mapLookup] using h

/-- Looking a key other than `name`, `value` and `description` up in the
serializer's map reads the generic property bag. -/
theorem serializeProps_lookup_of_ne (p : AXPayload) (k : String)
    (h1 : k ≠ "name") (h2 : k ≠ "value") (h3 : k ≠ "description") :
    mapLookup (serializeProps p) k = mapLookup (propBag (p.properties.getD [])) k := by
  unfold serializeProps
  cases p.name <;> cases p.value <;> cases p.description <;>
    simp [mapLookup_mapSet, h1, h2, h3]

/-- The `nodeById` map has a key exactly when some record carries that id. -/
theorem buildMap_lookup_isSome (payloads : List AXPayload) (k : String) :
    (mapLookup (buildMap payloads) k).isSome ↔ ∃ q ∈ payloads, q.nodeId = k := by
  have general : ∀ (ps : List AXPayload) (m : List (String × AXPayload)),
      (mapLookup (ps.foldl (fun m p => mapSet m p.nodeId p) m) k).isSome ↔
        (mapLookup m k).isSome ∨ ∃ q ∈ ps, q.nodeId = k := by
    intro ps
    induction ps with
    | nil => intro m; simp
    | cons q rest ih =>
      intro m
      simp only [List.foldl_cons]
      rw [ih, mapLookup_mapSet_isSome]
      simp only [List.mem_cons]
      constructor
      · rintro ((h | h) | ⟨q', hq, hk⟩)
        · exact Or.inr ⟨q, Or.inl rfl, h.symm⟩
        · exact Or.inl h
        · exact Or.inr ⟨q', Or.inr hq, hk⟩
      · rintro (h | ⟨q', (rfl | hq), hk⟩)
        · exact Or.inl (Or.inr h)
        · exact Or.inl (Or.inl hk.symm)
        · exact Or.inr ⟨q', hq, hk⟩
  have h := general payloads []
  simpa [mapLookup, buildMap] using h

/-- The `nodeById` map is empty exactly when the input is. -/
theorem buildMap_eq_nil_iff (payloads : List AXPayload) :
    buildMap payloads = [] ↔ payloads = [] := by
  cases payloads with
  | nil => simp [buildMap]
  | cons p rest =>
    simp only [buildMap, List.foldl_cons]
    have general : ∀ (ps : List AXPayload) (m : List (String × AXPayload)), m ≠ [] →
        ps.foldl (fun m p => mapSet m p.nodeId p) m ≠ [] := by
      intro ps
      induction ps with
      | nil => intro m hm; simpa using hm
      | cons q rest ih =>
        intro m _
        simp only [List.foldl_cons]
        exact ih _ (mapSet_ne_nil m q.nodeId q)
    simp only [List.cons_ne_nil, iff_false]
    exact general rest _ (mapSet_ne_nil [] p.nodeId p)

/-! ## Helper lemmas about the classification engine and the search -/

mutual

/-- `_hasFocusableChild` computes "some transitive descendant is
focusable". -/
theorem CRAXNode.hasFocusableChild_iff :
    ∀ n : CRAXNode, n.hasFocusableChild = true ↔ ∃ d ∈ preorderAux n.children, d.focusable = true
  | .mk pl cs => by
    have h := hasFocusableChildAux_iff cs
    simpa [CRAXNode.hasFocusableChild, CRAXNode.children] using h

/-- The loop of `_hasFocusableChild` computes "some node of some tree of the
forest is focusable, the roots included". -/
theorem hasFocusableChildAux_iff :
    ∀ cs : List CRAXNode, hasFocusableChildAux cs = true ↔ ∃ d ∈ preorderAux cs, d.focusable = true
  | [] => by simp [hasFocusableChildAux, preorderAux]
  | c :: rest => by
    have h1 := CRAXNode.hasFocusableChild_iff c
    have h2 := hasFocusableChildAux_iff rest
    cases c with
    | mk pl cs =>
      simp only [hasFocusableChildAux, preorderAux, CRAXNode.preorder, Bool.or_eq_true,
        List.mem_append, List.mem_cons] at h1 h2 ⊢
      constructor
      · rintro ((h | h) | h)
        · exact ⟨.mk pl cs, Or.inl (Or.inl rfl), h⟩
        · obtain ⟨d, hd, hdf⟩ := h1.mp h
          exact ⟨d, Or.inl (Or.inr hd), hdf⟩
        · obtain ⟨d, hd, hdf⟩ := h2.mp h
          exact ⟨d, Or.inr hd, hdf⟩
      · rintro ⟨d, (rfl | hd) | hd, hdf⟩
        · exact Or.inl (Or.inl hdf)
        · exact Or.inl (Or.inr (h1.mpr ⟨d, hd, hdf⟩))
        · exact Or.inr (h2.mpr ⟨d, hd, hdf⟩)

end

mutual

/-- `find` returns the first node of the preorder traversal satisfying the
predicate. -/
theorem CRAXNode.find_eq_preorder (p : CRAXNode → Bool) :
    ∀ n : CRAXNode, n.find p = n.preorder.find? p
  | .mk pl cs => by
    have h := findAux_eq_preorder p cs
    cases hp : p (.mk pl cs) <;>
      simp [CRAXNode.find, CRAXNode.preorder, hp, h]

/-- The loop of `find` returns the first node of the forest's preorder
traversal satisfying the predicate. -/
theorem findAux_eq_preorder (p : CRAXNode → Bool) :
    ∀ cs : List CRAXNode, findAux p cs = (preorderAux cs).find? p
  | [] => by simp [findAux, preorderAux]
  | c :: rest => by
    have h1 := CRAXNode.find_eq_preorder p c
    have h2 := findAux_eq_preorder p rest
    rw [findAux, h1, h2, preorderAux, List.find?_append]
    cases c.preorder.find? p <;> simp [Option.or]

end

/-! ## The claims -/

/-- C3 (counterexample): the specification writes the role set of
`isPlainTextField` as {textbox, combobox, searchbox}, but the source compares
against `'ComboBox'`: a non-editable node with role `combobox` is not a plain
text field. -/
theorem isPlainTextField_combobox_claim_cex :
    comboboxNode.richlyEditable = false ∧ comboboxNode.editable = false ∧
    comboboxNode.role = "combobox" ∧ comboboxNode.isPlainTextField = false := by
  refine ⟨rfl, rfl, rfl, by decide⟩

/-- C3 (amended): `isPlainTextField` is false for a richly editable node,
true for any other editable node, and otherwise true exactly when the role is
`textbox`, `ComboBox` (capitalised) or `searchbox`. -/
theorem isPlainTextField_spec (n : CRAXNode) :
    n.isPlainTextField = true ↔
      n.richlyEditable = false ∧ (n.editable = true ∨
        (n.role = "textbox" ∨ n.role = "ComboBox" ∨ n.role = "searchbox")) := by
  unfold CRAXNode.isPlainTextField
  cases hre : n.richlyEditable
  · cases he : n.editable <;> simp [hre, he, or_assoc]
  · simp [hre]

/-- C4 (counterexample): the specification writes `meter` in the
presentational-role set of `isLeafNode`, but the source matches `'Meter'`: a
node with role `meter` and one inert child is not a leaf. -/
theorem isLeafNode_meter_claim_cex :
    meterNode.role = "meter" ∧ meterNode.children.isEmpty = false ∧
    meterNode.isPlainTextField = false ∧ meterNode.isTextOnlyObject = false ∧
    meterNode.isLeafNode = false := by
  refine ⟨rfl, rfl, by decide, by decide, by decide⟩

/-- C4 (amended): `isLeafNode` is true for a childless node, a plain text
field, a text-only object, or a role in the fixed presentational set (with
`Meter` capitalised); otherwise it is true exactly when the node has no
focusable descendant and is either focusable with a non-empty name or a
`heading` with a non-empty name. -/
theorem isLeafNode_spec (n : CRAXNode) :
    n.isLeafNode = true ↔
      n.children = [] ∨ n.isPlainTextField = true ∨ n.isTextOnlyObject = true ∨
      n.role ∈ ["doc-cover", "graphics-symbol", "img", "Meter", "scrollbar",
                 "slider", "separator", "progressbar"] ∨
      (n.hasFocusableChild = false ∧
        ((n.focusable = true ∧ n.name ≠ "") ∨ (n.role = "heading" ∧ n.name ≠ ""))) := by
  unfold CRAXNode.isLeafNode
  split_ifs with h1 h2 h3 h4 h5 h6 <;> simp_all <;> tauto

/-- C5: `_hasFocusableChild` evaluated a second time (with the memo cell left
by the first call) returns the value of the first call, and that value is
true exactly when some transitive descendant is focusable. -/
theorem hasFocusableChild_spec (n : CRAXNode) :
    (hasFocusableChildMemo (hasFocusableChildMemo none n).2 n).1 =
        (hasFocusableChildMemo none n).1 ∧
    ((hasFocusableChildMemo none n).1 = true ↔
      ∃ d ∈ n.descendants, d.focusable = true) := by
  refine ⟨rfl, ?_⟩
  simpa [hasFocusableChildMemo, CRAXNode.descendants] using CRAXNode.hasFocusableChild_iff n

/-- C6 (counterexample): the specification writes the suppressed role as
`ignored`, but the source compares against `'Ignored'`: a childless named
node with role `ignored` is interesting. -/
theorem isInteresting_ignored_claim_cex :
    ignoredNode.role = "ignored" ∧ ignoredNode.hidden = false ∧
    ignoredNode.isInteresting false = true := by
  refine ⟨rfl, rfl, by decide⟩

/-- C6 (amended): `isInteresting(insideControl)` is false for a hidden node
or role `Ignored` (capitalised); else true for a focusable or richly editable
node or a control; else false inside a control; otherwise true exactly for a
leaf with a non-empty name. -/
theorem isInteresting_spec (n : CRAXNode) (insideControl : Bool) :
    n.isInteresting insideControl = true ↔
      (n.role ≠ "Ignored" ∧ n.hidden = false) ∧
      (n.focusable = true ∨ n.richlyEditable = true ∨ n.isControl = true ∨
        (insideControl = false ∧ n.isLeafNode = true ∧ n.name ≠ "")) := by
  unfold CRAXNode.isInteresting
  by_cases hI : n.role = "Ignored"
  · cases hh : n.hidden <;> simp [hI, hh]
  · cases hh : n.hidden
    · cases hf : n.focusable
      · cases hre : n.richlyEditable
        · cases hc : n.isControl
          · cases hic : insideControl
            · cases hleaf : n.isLeafNode <;> by_cases hn : n.name = "" <;>
                simp [hI, hh, hf, hre, hc, hic, hleaf, hn]
            · simp [hI, hh, hf, hre, hc, hic]
          · simp [hI, hh, hf, hre, hc]
        · simp [hI, hh, hf, hre]
      · simp [hI, hh, hf]
    · simp [hI, hh]

/-- C9: `find` is the depth-first search visiting a node before its children
and the children left to right: it returns the first node of the preorder
traversal satisfying the predicate, `none` exactly when no visited node
satisfies it, and is a function of the tree and the predicate alone. -/
theorem find_dfs_spec (p : CRAXNode → Bool) (n : CRAXNode) :
    n.find p = n.preorder.find? p ∧
    (n.find p = none ↔ ∀ d ∈ n.preorder, p d = false) := by
  refine ⟨CRAXNode.find_eq_preorder p n, ?_⟩
  rw [CRAXNode.find_eq_preorder p n, List.find?_eq_none]
  simp

/-- C1 (counterexample): `serialize` is not total — on a payload with no
`name` field, line 210 dereferences `undefined` and throws; and the role
default written by the constructor is `'Unknown'`, not `'unknown'`. -/
theorem serialize_totality_claim_cex :
    serializePayload noNamePayload = none ∧
    (serializePayload noRolePayload).map SerializedAXNode.role = some "Unknown" ∧
    "Unknown" ≠ "unknown" := by
  refine ⟨rfl, rfl, by decide⟩

/-- C1 (amended): `serialize` throws exactly on a payload whose `name` field
is absent; on every payload with a `name` it returns a record that always
carries both `role` and `name`, the role degrading to the default
`"Unknown"` when the role field is absent. -/
theorem serialize_role_name_defaults (p : AXPayload) :
    (serializePayload p = none ↔ p.name = none) ∧
    ∀ r, serializePayload p = some r →
      r.role = p.role.getD "Unknown" ∧ r.name = p.name.getD "" := by
  cases hn : p.name with
  | none => simp [serializePayload, hn]
  | some nv =>
    constructor
    · simp [serializePayload, hn]
    · intro r hr
      simp only [serializePayload, hn] at hr
      rw [Option.some.injEq] at hr
      rw [← hr]
      exact ⟨rfl, rfl⟩

/-- C1 (witness for the amended claim) at `noRolePayload`. -/
theorem serialize_role_name_defaults_witness :
    (serializePayload noRolePayload = none ↔ noRolePayload.name = none) ∧
    (({ role := "Unknown", name := "nm" } : SerializedAXNode).role =
        noRolePayload.role.getD "Unknown" ∧
     ({ role := "Unknown", name := "nm" } : SerializedAXNode).name =
        noRolePayload.name.getD "") :=
  ⟨(serialize_role_name_defaults noRolePayload).1,
   (serialize_role_name_defaults noRolePayload).2 { role := "Unknown", name := "nm" } rfl⟩

/-- C7: a node whose role is `WebArea` never has `focused` in its serialized
output, whatever `focused` property the payload carries. -/
theorem serialize_webArea_focused_omitted (n : CRAXNode) (r : SerializedAXNode)
    (hrole : n.role = "WebArea") (hr : n.serialize = some r) :
    r.focused = none := by
  unfold CRAXNode.serialize at hr
  unfold CRAXNode.role at hrole
  cases hn : n.payload.name with
  | none => simp [serializePayload, hn] at hr
  | some nv =>
    simp only [serializePayload, hn] at hr
    rw [Option.some.injEq] at hr
    rw [← hr]
    simp [hrole]

/-- C7 (witness) at a `WebArea` node carrying a truthy `focused` property. -/
theorem serialize_webArea_focused_omitted_witness :
    ({ role := "WebArea", name := "" } : SerializedAXNode).focused = none :=
  serialize_webArea_focused_omitted webAreaNode { role := "WebArea", name := "" } rfl rfl

/-- C8: the serialized `checked`/`pressed` field is present exactly when the
payload carries a property of that (lower-cased) name, and its value is the
tristate image of the property value: `"mixed"` stays the string `"mixed"`,
`"true"` becomes `true`, anything else becomes `false`. -/
theorem serialize_tristate_spec (p : AXPayload) (r : SerializedAXNode)
    (hr : serializePayload p = some r) :
    r.checked = (mapLookup (serializeProps p) "checked").map tristateOf ∧
    r.pressed = (mapLookup (serializeProps p) "pressed").map tristateOf ∧
    ((mapLookup (serializeProps p) "checked").isSome ↔
      ∃ pr ∈ p.properties.getD [], lowerAscii pr.name = "checked") ∧
    ((mapLookup (serializeProps p) "pressed").isSome ↔
      ∃ pr ∈ p.properties.getD [], lowerAscii pr.name = "pressed") := by
  have hfields : r.checked = (mapLookup (serializeProps p) "checked").map tristateOf ∧
      r.pressed = (mapLookup (serializeProps p) "pressed").map tristateOf := by
    cases hn : p.name with
    | none => simp [serializePayload, hn] at hr
    | some nv =>
      simp only [serializePayload, hn] at hr
      rw [Option.some.injEq] at hr
      rw [← hr]
      exact ⟨rfl, rfl⟩
  refine ⟨hfields.1, hfields.2, ?_, ?_⟩
  · rw [serializeProps_lookup_of_ne p "checked" (by decide) (by decide) (by decide)]
    exact propBag_lookup_isSome _ _
  · rw [serializeProps_lookup_of_ne p "pressed" (by decide) (by decide) (by decide)]
    exact propBag_lookup_isSome _ _

/-- C8 (witness) at a payload whose `checked` property is `"mixed"` and which
has no `pressed` property. -/
theorem serialize_tristate_spec_witness :
    mixedCheckedOutput.checked =
        (mapLookup (serializeProps mixedCheckedPayload) "checked").map tristateOf ∧
    mixedCheckedOutput.pressed =
        (mapLookup (serializeProps mixedCheckedPayload) "pressed").map tristateOf ∧
    ((mapLookup (serializeProps mixedCheckedPayload) "checked").isSome ↔
      ∃ pr ∈ mixedCheckedPayload.properties.getD [], lowerAscii pr.name = "checked") ∧
    ((mapLookup (serializeProps mixedCheckedPayload) "pressed").isSome ↔
      ∃ pr ∈ mixedCheckedPayload.properties.getD [], lowerAscii pr.name = "pressed") :=
  serialize_tristate_spec mixedCheckedPayload mixedCheckedOutput (by decide)

/-- C10: a `checked` or `pressed` property whose payload value is the boolean
`true` (not the string `"true"`) serializes to the boolean `false`, because
the tristate mapping compares only against the strings `'mixed'` and
`'true'`. -/
theorem serialize_tristate_bool_true (p : AXPayload) (r : SerializedAXNode)
    (hr : serializePayload p = some r) :
    (mapLookup (serializeProps p) "checked" = some (.bool true) →
      r.checked = some (.bool false)) ∧
    (mapLookup (serializeProps p) "pressed" = some (.bool true) →
      r.pressed = some (.bool false)) := by
  have hfields : r.checked = (mapLookup (serializeProps p) "checked").map tristateOf ∧
      r.pressed = (mapLookup (serializeProps p) "pressed").map tristateOf := by
    cases hn : p.name with
    | none => simp [serializePayload, hn] at hr
    | some nv =>
      simp only [serializePayload, hn] at hr
      rw [Option.some.injEq] at hr
      rw [← hr]
      exact ⟨rfl, rfl⟩
  constructor
  · intro h
    rw [hfields.1, h]
    rfl
  · intro h
    rw [hfields.2, h]
    rfl

/-- C10 (witness) at a payload whose `checked` and `pressed` properties are
the boolean `true`. -/
theorem serialize_tristate_bool_true_witness :
    boolTrueOutput.checked = some (AXValue.bool false) ∧
    boolTrueOutput.pressed = some (AXValue.bool false) :=
  ⟨(serialize_tristate_bool_true boolTruePayload boolTrueOutput (by decide)).1 (by decide),
   (serialize_tristate_bool_true boolTruePayload boolTrueOutput (by decide)).2 (by decide)⟩

/-- C2 (counterexample): on a record set whose only record lists the absent
child id `"x9"`, `createTree` does not fail — it returns a root whose dangling
child slot holds `undefined` — and on an empty record set it returns
`undefined` rather than signalling an error.  No `DanglingChildReference` or
`EmptyNodeSet` failure exists in the builder. -/
theorem createTree_dangling_claim_cex :
    createTree [danglingPayload] = some ⟨danglingPayload, [none]⟩ ∧
    createTree [] = none := by
  refine ⟨by decide, rfl⟩

/-- C2 (amended): tree construction is total and performs no validation: the
result is `undefined` exactly for an empty input, and a child-id slot of a
built node resolves to a node exactly when some record carries that id — a
dangling id silently becomes an `undefined` child instead of aborting. -/
theorem createTree_never_fails (payloads : List AXPayload) :
    (createTree payloads = none ↔ payloads = []) ∧
    ∀ b ∈ buildNodes payloads, ∀ (i : ℕ)
      (h : i < (b.payload.childIds.getD []).length) (h' : i < b.childNodes.length),
      ((b.childNodes[i]).isSome ↔
        ∃ q ∈ payloads, q.nodeId = (b.payload.childIds.getD [])[i]) := by
  constructor
  · rw [createTree, List.head?_eq_none_iff]
    unfold buildNodes
    rw [List.map_eq_nil_iff]
    exact buildMap_eq_nil_iff payloads
  · intro b hb i h h'
    unfold buildNodes at hb
    obtain ⟨e, he, rfl⟩ := List.mem_map.mp hb
    simp only [List.getElem_map]
    exact buildMap_lookup_isSome payloads _

/-- C2 (witness for the amended claim) at a one-record input whose child id
resolves to itself. -/
theorem createTree_never_fails_witness :
    (createTree [selfChildPayload] = none ↔ [selfChildPayload] = []) ∧
    ((some selfChildPayload).isSome ↔ ∃ q ∈ [selfChildPayload], q.nodeId = "n1") := by
  constructor
  · exact (createTree_never_fails [selfChildPayload]).1
  · have h := (createTree_never_fails [selfChildPayload]).2
      ⟨selfChildPayload, [some selfChildPayload]⟩ (by decide) 0 (by decide) (by decide)
    simpa using h
